import Mathlib

/-!
The filesystem adapter of bundle-s3-fs: `main.go`

A shallow embedding of the file handle (`bs3File`) and of the adapter
(`bundleS3FS`) of `main.go`.

* A Go byte slice is a window on a backing array: `Slice` keeps the visible
  elements and the elements of the backing array behind them (up to the
  capacity).  A slice expression outside `0 <= low <= high <= cap` is a
  run-time panic; partial operations return `Option`, `none` being the panic.
* `int` and `int64` values are mathematical integers (lengths of resident
  buffers never reach `2^63`); the `uint32` conversion of `Write` is an
  explicit `% 2^32`.  In `Write` the allocated size is at most
  `cap(f.data) + len(content)` whenever no slice expression panics, and `make`
  succeeds there.  In `Truncate` the size is the caller's `uint64`: the
  conversion `int(size)` wraps at `2^63`, and `make` fails beyond what the
  runtime can allocate.
* The object store (`bundles3`), the local scratch files and the clock are an
  explicit environment, reached through a `Backend` record; every call that
  leaves the process is appended to a trace.
-/

namespace BundleS3FS

/-! ## Go slices -/

/-- A Go `[]byte`: `vis` are the elements below `len`, `hid` the elements of
the backing array between `len` and `cap`. -/
structure Slice where
  vis : List UInt8
  hid : List UInt8
deriving DecidableEq, Repr

namespace Slice

/-- The value of `len(s)`. -/
def len (s : Slice) : Nat := s.vis.length

/-- The value of `cap(s)`. -/
def cap (s : Slice) : Nat := s.vis.length + s.hid.length

/-- The slice expression `s[lo:hi]`; `none` is the panic
"slice bounds out of range". -/
def slice (s : Slice) (lo hi : Int) : Option Slice :=
  if 0 ≤ lo ∧ lo ≤ hi ∧ hi ≤ (s.cap : Int) then
    some ⟨((s.vis ++ s.hid).take hi.toNat).drop lo.toNat, (s.vis ++ s.hid).drop hi.toNat⟩
  else none

end Slice

/-- The result of `make([]byte, n)`: `n` zero bytes, capacity `n`. -/
def make (n : Nat) : List UInt8 := List.replicate n 0

/-- The statement `copy(tmp[lo:hi], src)` on a freshly made array `tmp`
(length = capacity): the array afterwards, or `none` when `tmp[lo:hi]` panics.
`copy` moves `min(hi - lo, len(src))` elements. -/
def copyAt (tmp : List UInt8) (lo hi : Int) (src : List UInt8) : Option (List UInt8) :=
  if 0 ≤ lo ∧ lo ≤ hi ∧ hi ≤ (tmp.length : Int) then
    let n := min (hi - lo).toNat src.length
    some (tmp.take lo.toNat ++ src.take n ++ tmp.drop (lo.toNat + n))
  else none

/-- The statement `tmp[i] = v`; `none` is the panic "index out of range". -/
def setAt (tmp : List UInt8) (i : Nat) (v : UInt8) : Option (List UInt8) :=
  if i < tmp.length then some (tmp.set i v) else none

/-- The conversion `int(size)` of a `uint64` value (64-bit two's complement);
a `uint64` argument is the natural number taken modulo `2^64`. -/
def intOfUint64 (n : Nat) : Int :=
  if n % 2 ^ 64 < 2 ^ 63 then ((n % 2 ^ 64 : Nat) : Int)
  else ((n % 2 ^ 64 : Nat) : Int) - 2 ^ 64

/-- The bound `maxAlloc` of the Go runtime on one allocation (64-bit Linux). -/
def maxAlloc : Nat := 2 ^ 48

/-- The expression `make([]byte, size)` for a `uint64` size, `avail` being the
number of bytes the runtime can allocate at that moment.  `none` is the panic
"makeslice: len out of range" (the size is negative as an `int` or exceeds
`maxAlloc`) or the fatal error "out of memory". -/
def makeUint64 (avail size : Nat) : Option (List UInt8) :=
  if 0 ≤ intOfUint64 size ∧ intOfUint64 size ≤ (maxAlloc : Int) ∧ size % 2 ^ 64 ≤ avail then
    some (make (size % 2 ^ 64))
  else none

/-! ## Status codes and attributes -/

/-- The `fuse.Status` values the program returns (`EIO` is never returned by
the code; it is the generic I/O error of the transport). -/
inductive Status where
  | OK
  | ENOENT
  | EIO
  | EINVAL
deriving DecidableEq, Repr

/-- The constant `fuse.S_IFREG`. -/
def S_IFREG : Nat := 0x8000

/-- The constant `fuse.S_IFDIR`. -/
def S_IFDIR : Nat := 0x4000

/-- The fields of `fuse.Attr` the program sets. -/
structure Attr where
  Mode : Nat
  Size : Nat
deriving DecidableEq, Repr

/-- A `fuse.DirEntry`. -/
structure DirEntry where
  Name : String
  Mode : Nat
deriving DecidableEq, Repr

/-- A `*bundles3.Object`: the name it is stored under and its
local materialisation path (`Path()`). -/
structure Object where
  name : String
  path : String
deriving DecidableEq, Repr

/-! ## The file handle -/

/-- The fields of `bs3File` (the adapter `b` and the store `bs3` are passed
explicitly to the operations that use them). -/
structure bs3File where
  data : Slice
  name : String
  o : Object
deriving DecidableEq, Repr

namespace bs3File

/-- `bs3File.GetAttr`. -/
def GetAttr (f : bs3File) : Attr × Status :=
  (⟨S_IFREG ||| 0o755, f.data.len⟩, Status.OK)

/-- `bs3File.Read`, with `bufLen = len(buf)`: the bytes of the result and the
status, or `none` when `f.data[off:end]` panics. -/
def Read (f : bs3File) (bufLen : Nat) (off : Int) : Option (List UInt8 × Status) :=
  let end0 : Int := off + (bufLen : Int)
  let end1 : Int := if end0 > (f.data.len : Int) then (f.data.len : Int) else end0
  match f.data.slice off end1 with
  | none => none
  | some r => some (r.vis, Status.OK)

/-- `bs3File.Write`: the handle afterwards, the returned `uint32` and the
status, or `none` when one of the slice expressions panics. -/
def Write (f : bs3File) (content : List UInt8) (off : Int) : Option (bs3File × Nat × Status) :=
  let end0 : Int := off + (content.length : Int)
  let size : Int := if end0 > (f.data.len : Int) then end0 else (f.data.len : Int)
  let tmp0 := make size.toNat
  match f.data.slice 0 off with
  | none => none
  | some src =>
    match copyAt tmp0 0 off src.vis with
    | none => none
    | some tmp1 =>
      match copyAt tmp1 off end0 content with
      | none => none
      | some tmp2 =>
        let tail : Option (List UInt8) :=
          if size < (f.data.len : Int) then
            match f.data.slice end0 (f.data.len : Int) with
            | none => none
            | some rest => copyAt tmp2 end0 size rest.vis
          else some tmp2
        match tail with
        | none => none
        | some tmp3 => some ({ f with data := ⟨tmp3, []⟩ }, tmp3.length % 2 ^ 32, Status.OK)

/-- The loop `for i := s; i < size; i++ { tmp[i] = 0 }` of `Truncate`,
`n` being the number of iterations left. -/
def zeroFill : Nat → Nat → List UInt8 → Option (List UInt8)
  | 0, _, tmp => some tmp
  | n + 1, i, tmp =>
    match setAt tmp i 0 with
    | none => none
    | some tmp1 => zeroFill n (i + 1) tmp1

/-- `bs3File.Truncate`, `avail` being the number of bytes the runtime can
allocate; `none` when `make` or a slice expression fails. -/
def Truncate (f : bs3File) (avail : Nat) (size : Nat) : Option (bs3File × Status) :=
  match makeUint64 avail size with
  | none => none
  | some tmp0 =>
    let s : Int :=
      if intOfUint64 size < (f.data.len : Int) then intOfUint64 size else (f.data.len : Int)
    match f.data.slice 0 s with
    | none => none
    | some src =>
      match copyAt tmp0 0 s src.vis with
      | none => none
      | some tmp1 =>
        match zeroFill (intOfUint64 size - s).toNat s.toNat tmp1 with
        | none => none
        | some tmp2 => some ({ f with data := ⟨tmp2, []⟩ }, Status.OK)

end bs3File

/-- `newbs3File`. -/
def newbs3File (data : Slice) (name : String) (o : Object) : bs3File :=
  { data := data, name := name, o := o }

/-! ## The size cache -/

/-- Modelled from the spec: the `goc.Cache` type of the external package
`golang-cache` (section 4.3: a bounded name-to-size mapping with
least-recently-used eviction).  `entries` is ordered from most to least
recently used. -/
structure Cache where
  capacity : Nat
  entries : List (String × Nat)
deriving DecidableEq, Repr

namespace Cache

/-- Modelled from the spec: `goc.NewCache("lru", n)`. -/
def NewCache (n : Nat) : Cache := { capacity := n, entries := [] }

/-- The size recorded for `k`, if any (no effect on recency). -/
def peek (c : Cache) (k : String) : Option Nat :=
  (c.entries.find? (fun e => e.1 == k)).map (fun e => e.2)

/-- Modelled from the spec: `Get(name) -> (size, found)`; a hit makes the
entry the most recently used one. -/
def Get (c : Cache) (k : String) : Option Nat × Cache :=
  match c.peek k with
  | none => (none, c)
  | some v => (some v, { c with entries := (k, v) :: c.entries.filter (fun e => !(e.1 == k)) })

/-- Modelled from the spec: `Set(name, size)` inserts or refreshes recency;
the least recently used entries are dropped beyond the capacity. -/
def Set (c : Cache) (k : String) (v : Nat) : Cache :=
  { c with entries := ((k, v) :: c.entries.filter (fun e => !(e.1 == k))).take c.capacity }

end Cache

/-! ## The environment: store, scratch files, clock -/

/-- Modelled from the spec: the collaborator contract of section 6
(`bundles3` is an external package) together with the `ioutil`/`os`/`time`
calls of `main.go`.  `σ` is the state of everything outside the process.
A result `none` (or `true` for the calls that return only an error) stands
for a non-nil `error`. -/
structure Backend (σ : Type) where
  /-- The value of `time.Now().Unix()`. -/
  now : σ → Int
  /-- The call `bs3.List(prefix)`. -/
  list : String → σ → Option (List String) × σ
  /-- The call `bs3.Get(name)`. -/
  get : String → σ → Option Object × σ
  /-- The call `bundles3.NewObjectFromContent(content, name)`. -/
  newObjectFromContent : List UInt8 → String → σ → Option Object × σ
  /-- The call `o.Upload(bs3)`; `true` when the error is non-nil. -/
  upload : Object → σ → Bool × σ
  /-- The call `bs3.Delete(name)`; `true` when the error is non-nil. -/
  delete : String → σ → Bool × σ
  /-- The call `ioutil.WriteFile(path, data, 0644)`; `true` when the error is non-nil. -/
  writeFile : String → List UInt8 → σ → Bool × σ
  /-- The call `ioutil.ReadFile(path)`. -/
  readFile : String → σ → Option Slice × σ
  /-- The size reported by `os.Stat(path)`. -/
  stat : String → σ → Option Nat × σ

/-- One call that leaves the process. -/
inductive Call where
  | list (pfx : String)
  | get (name : String)
  | newObject (name : String)
  | upload (name : String)
  | delete (name : String)
  | writeFile (path : String)
  | readFile (path : String)
  | stat (path : String)
deriving DecidableEq, Repr

/-- Whether a call goes to the object store with a name or an object. -/
def Call.isStore : Call → Bool
  | Call.list _ => true
  | Call.get _ => true
  | Call.newObject _ => true
  | Call.upload _ => true
  | Call.delete _ => true
  | _ => false

/-- The environment and the trace of the calls made so far, oldest first. -/
structure World (σ : Type) where
  env : σ
  trace : List Call

variable {σ : Type}

/-- `bs3.List(pfx)`, recorded in the trace. -/
def callList (B : Backend σ) (pfx : String) (w : World σ) : Option (List String) × World σ :=
  ((B.list pfx w.env).1, ⟨(B.list pfx w.env).2, w.trace ++ [Call.list pfx]⟩)

/-- `bs3.Get(name)`, recorded in the trace. -/
def callGet (B : Backend σ) (name : String) (w : World σ) : Option Object × World σ :=
  ((B.get name w.env).1, ⟨(B.get name w.env).2, w.trace ++ [Call.get name]⟩)

/-- `bundles3.NewObjectFromContent(content, name)`, recorded in the trace. -/
def callNewObject (B : Backend σ) (content : List UInt8) (name : String) (w : World σ) :
    Option Object × World σ :=
  ((B.newObjectFromContent content name w.env).1,
    ⟨(B.newObjectFromContent content name w.env).2, w.trace ++ [Call.newObject name]⟩)

/-- `o.Upload(bs3)`, recorded in the trace. -/
def callUpload (B : Backend σ) (o : Object) (w : World σ) : Bool × World σ :=
  ((B.upload o w.env).1, ⟨(B.upload o w.env).2, w.trace ++ [Call.upload o.name]⟩)

/-- `bs3.Delete(name)`, recorded in the trace. -/
def callDelete (B : Backend σ) (name : String) (w : World σ) : Bool × World σ :=
  ((B.delete name w.env).1, ⟨(B.delete name w.env).2, w.trace ++ [Call.delete name]⟩)

/-- `ioutil.WriteFile(path, data, 0644)`, recorded in the trace. -/
def callWriteFile (B : Backend σ) (path : String) (data : List UInt8) (w : World σ) :
    Bool × World σ :=
  ((B.writeFile path data w.env).1,
    ⟨(B.writeFile path data w.env).2, w.trace ++ [Call.writeFile path]⟩)

/-- `ioutil.ReadFile(path)`, recorded in the trace. -/
def callReadFile (B : Backend σ) (path : String) (w : World σ) : Option Slice × World σ :=
  ((B.readFile path w.env).1, ⟨(B.readFile path w.env).2, w.trace ++ [Call.readFile path]⟩)

/-- `filseSize(path)`: the size and whether `os.Stat` failed. -/
def filseSize (B : Backend σ) (path : String) (w : World σ) : (Nat × Bool) × World σ :=
  match (B.stat path w.env).1 with
  | none => ((0, true), ⟨(B.stat path w.env).2, w.trace ++ [Call.stat path]⟩)
  | some n => ((n, false), ⟨(B.stat path w.env).2, w.trace ++ [Call.stat path]⟩)

/-! ## The adapter -/

/-- The fields of `bundleS3FS` (the store `bs3` is the `Backend`). -/
structure bundleS3FS where
  l : List String
  cacheTime : Int
  fileSize : Cache
deriving DecidableEq, Repr

/-- `newbundleS3FS`. -/
def newbundleS3FS : bundleS3FS :=
  { l := [], cacheTime := 0, fileSize := Cache.NewCache 200 }

/-- `bundleS3FS.updateList`. -/
def updateList (B : Backend σ) (b : bundleS3FS) (w : World σ) : bundleS3FS × World σ :=
  if B.now w.env - b.cacheTime > 300 then
    match callList B "" w with
    | (none, w1) => (b, w1)
    | (some l, w1) => ({ b with l := l, cacheTime := B.now w1.env }, w1)
  else (b, w)

/-- The bytes of a name, `[]byte(name)`. -/
def nameBytes (name : String) : List UInt8 := name.toUTF8.data.toList

/-- The loop of `isLegalName` over the values `c` that `range` yields. -/
def isLegalName.loop : List Nat → Bool
  | [] => true
  | c :: cs => if c = 47 then false else isLegalName.loop cs

/-- `isLegalName`: with a single iteration variable, `for c := range []byte(name)`
yields the indices `0 .. len-1`; the constant `'/'` is 47. -/
def isLegalName (name : String) : Bool :=
  isLegalName.loop (List.range (nameBytes name).length)

/-- The result of an adapter call: the returned values, the adapter
afterwards and the world afterwards. -/
structure Outcome (σ : Type) (α : Type) where
  ret : α
  fs : bundleS3FS
  world : World σ

/-- The body of the `if n == name` branch in `bundleS3FS.GetAttr`. -/
def GetAttr.found (B : Backend σ) (b : bundleS3FS) (name : String) (w : World σ) :
    Outcome σ (Option Attr × Status) :=
  match callGet B name w with
  | (none, w1) => ⟨(none, Status.ENOENT), b, w1⟩
  | (some o, w1) =>
    match filseSize B o.path w1 with
    | ((s, _), w2) =>
      ⟨(some ⟨S_IFREG ||| 0o755, s⟩, Status.OK), { b with fileSize := b.fileSize.Set name s }, w2⟩

/-- The loop `for _, n := range b.l` of `bundleS3FS.GetAttr`, followed by the
final `return nil, fuse.ENOENT`. -/
def GetAttr.scan (B : Backend σ) (b : bundleS3FS) (name : String) (w : World σ) :
    List String → Outcome σ (Option Attr × Status)
  | [] => ⟨(none, Status.ENOENT), b, w⟩
  | n :: ns => if n = name then GetAttr.found B b name w else GetAttr.scan B b name w ns

/-- `bundleS3FS.GetAttr`. -/
def bundleS3FS.GetAttr (B : Backend σ) (b : bundleS3FS) (name : String) (w : World σ) :
    Outcome σ (Option Attr × Status) :=
  if name = "" then ⟨(some ⟨S_IFDIR ||| 0o755, 0⟩, Status.OK), b, w⟩
  else if !isLegalName name then ⟨(none, Status.EINVAL), b, w⟩
  else
    match b.fileSize.Get name with
    | (some s, c1) => ⟨(some ⟨S_IFREG ||| 0o755, s⟩, Status.OK), { b with fileSize := c1 }, w⟩
    | (none, c1) =>
      match updateList B { b with fileSize := c1 } w with
      | (b1, w1) => GetAttr.scan B b1 name w1 b1.l

/-- `bundleS3FS.OpenDir`. -/
def bundleS3FS.OpenDir (B : Backend σ) (b : bundleS3FS) (name : String) (w : World σ) :
    Outcome σ (Option (List DirEntry) × Status) :=
  if name = "" then
    match updateList B b w with
    | (b1, w1) => ⟨(some (b1.l.map (fun n => ⟨n, S_IFREG⟩)), Status.OK), b1, w1⟩
  else ⟨(none, Status.ENOENT), b, w⟩

/-- `bundleS3FS.Open`. -/
def bundleS3FS.Open (B : Backend σ) (b : bundleS3FS) (name : String) (w : World σ) :
    Outcome σ (Option bs3File × Status) :=
  if !isLegalName name then ⟨(none, Status.ENOENT), b, w⟩
  else
    match callGet B name w with
    | (none, w1) => ⟨(none, Status.ENOENT), b, w1⟩
    | (some o, w1) =>
      match callReadFile B o.path w1 with
      | (none, w2) => ⟨(none, Status.ENOENT), b, w2⟩
      | (some c, w2) => ⟨(some (newbs3File c name o), Status.OK), b, w2⟩

/-- `bundleS3FS.Create` (the backing array of `[]byte("")` is empty). -/
def bundleS3FS.Create (B : Backend σ) (b : bundleS3FS) (name : String) (w : World σ) :
    Outcome σ (Option bs3File × Status) :=
  if !isLegalName name then ⟨(none, Status.EINVAL), b, w⟩
  else
    match callNewObject B [] name w with
    | (none, w1) => ⟨(none, Status.ENOENT), b, w1⟩
    | (some o, w1) =>
      match callUpload B o w1 with
      | (true, w2) => ⟨(none, Status.ENOENT), b, w2⟩
      | (false, w2) =>
        ⟨(some (newbs3File ⟨[], []⟩ name o), Status.OK), { b with cacheTime := 0 }, w2⟩

/-- `bundleS3FS.Unlink`. -/
def bundleS3FS.Unlink (B : Backend σ) (b : bundleS3FS) (name : String) (w : World σ) :
    Outcome σ Status :=
  if !isLegalName name then ⟨Status.EINVAL, b, w⟩
  else ⟨Status.OK, { b with cacheTime := 0 }, (callDelete B name w).2⟩

/-- `bs3File.save`; the returned `Bool` is `true` when the error is non-nil. -/
def bs3File.save (B : Backend σ) (f : bs3File) (b : bundleS3FS) (w : World σ) : Outcome σ Bool :=
  match callWriteFile B f.o.path f.data.vis w with
  | (true, w1) => ⟨true, b, w1⟩
  | (false, w1) =>
    match callUpload B f.o w1 with
    | (err, w2) =>
      ⟨err, { b with fileSize := b.fileSize.Set f.name f.data.len, cacheTime := 0 }, w2⟩

/-- `bs3File.Flush`. -/
def bs3File.Flush (B : Backend σ) (f : bs3File) (b : bundleS3FS) (w : World σ) : Outcome σ Status :=
  match bs3File.save B f b w with
  | ⟨true, b1, w1⟩ => ⟨Status.ENOENT, b1, w1⟩
  | ⟨false, b1, w1⟩ => ⟨Status.OK, b1, w1⟩

/-- `bs3File.Fsync`. -/
def bs3File.Fsync (B : Backend σ) (f : bs3File) (b : bundleS3FS) (w : World σ) : Outcome σ Status :=
  match bs3File.save B f b w with
  | ⟨true, b1, w1⟩ => ⟨Status.ENOENT, b1, w1⟩
  | ⟨false, b1, w1⟩ => ⟨Status.OK, b1, w1⟩

/-! ## A reference store -/

/-- Modelled from the spec: a state of the remote object store of section 6,
of the local scratch directory and of the clock.  While `offline` is set
every call to the store fails. -/
structure MemEnv where
  clock : Int
  remote : List (String × List UInt8)
  scratch : List (String × List UInt8)
  offline : Bool
deriving DecidableEq, Repr

/-- Association-list update. -/
def put (m : List (String × List UInt8)) (k : String) (v : List UInt8) :
    List (String × List UInt8) :=
  (k, v) :: m.filter (fun e => !(e.1 == k))

/-- Association-list lookup. -/
def look (m : List (String × List UInt8)) (k : String) : Option (List UInt8) :=
  (m.find? (fun e => e.1 == k)).map (fun e => e.2)

/-- The scratch path of an object. -/
def scratchPath (name : String) : String := "/tmp/" ++ name

/-- Modelled from the spec: the store operations of section 6 over `MemEnv`:
`list` returns the stored names, `get` materialises the object in the scratch
directory, `upload` stores the scratch file under the object's name and
`delete` removes the name. -/
def memBackend : Backend MemEnv where
  now := fun e => e.clock
  list := fun pfx e =>
    if e.offline then (none, e)
    else (some ((e.remote.map (fun x => x.1)).filter (fun n => pfx.data.isPrefixOf n.data)), e)
  get := fun name e =>
    if e.offline then (none, e)
    else
      match look e.remote name with
      | none => (none, e)
      | some c => (some ⟨name, scratchPath name⟩, { e with scratch := put e.scratch (scratchPath name) c })
  newObjectFromContent := fun content name e =>
    (some ⟨name, scratchPath name⟩, { e with scratch := put e.scratch (scratchPath name) content })
  upload := fun o e =>
    if e.offline then (true, e)
    else
      match look e.scratch o.path with
      | none => (true, e)
      | some c => (false, { e with remote := put e.remote o.name c })
  delete := fun name e =>
    if e.offline then (true, e)
    else (false, { e with remote := e.remote.filter (fun x => !(x.1 == name)) })
  writeFile := fun path data e => (false, { e with scratch := put e.scratch path data })
  readFile := fun path e =>
    match look e.scratch path with
    | none => (none, e)
    | some c => (some ⟨c, []⟩, e)
  stat := fun path e => ((look e.scratch path).map (fun c => c.length), e)

/-- An empty store at the given time. -/
def emptyEnv (t : Int) : MemEnv := { clock := t, remote := [], scratch := [], offline := false }

/-! ## The store assumption of the round trip -/

/-- The store keeps what is uploaded through the object `o` under the name `a`:
whenever the scratch write of `d` and the upload of `o` succeed, `Get(a)`
succeeds right after and the file at the path of the object it returns reads
back as `d`. -/
def storeKeepsUploads (B : Backend σ) (a : String) (o : Object) : Prop :=
  ∀ (e : σ) (d : List UInt8),
    (B.writeFile o.path d e).1 = false →
    (B.upload o (B.writeFile o.path d e).2).1 = false →
    ∃ o1 c,
      (B.get a (B.upload o (B.writeFile o.path d e).2).2).1 = some o1
        ∧ (B.readFile o1.path (B.get a (B.upload o (B.writeFile o.path d e).2).2).2).1 = some c
        ∧ c.vis = d

/-! ## Sample values -/

/-- A handle on the object `a` whose buffer `[1, 2, 3]` fills its backing array,
as after `make([]byte, 3)`. -/
def sampleFile : bs3File :=
  { data := ⟨[1, 2, 3], []⟩, name := "a", o := ⟨"a", scratchPath "a"⟩ }

/-- The handle `Create` returns for the name `a`. -/
def createdFile : bs3File := newbs3File ⟨[], []⟩ "a" ⟨"a", scratchPath "a"⟩

/-- A store that holds the one-byte object `a`, at time 1000. -/
def sampleEnv : MemEnv := { clock := 1000, remote := [("a", [7])], scratch := [], offline := false }

/-- The values observed along the run, from a fresh adapter over an empty
store: `Create("a")`, `Write([1, 2, 3], 0)` on the handle, `save`, a second
`Create("a")`, adapter `GetAttr("a")`. -/
structure RecreateLog where
  firstCreate : Status
  saveFailed : Bool
  secondCreate : Status
  storedObject : Option (List UInt8)
  attr : Option Attr × Status
deriving DecidableEq, Repr

/-- The run described at `RecreateLog`; `none` if a step that has to succeed
does not. -/
def recreateRun : Option RecreateLog :=
  match newbundleS3FS.Create memBackend "a" ⟨emptyEnv 1000, []⟩ with
  | ⟨(none, _), _, _⟩ => none
  | ⟨(some f, st1), b1, w1⟩ =>
    match f.Write [1, 2, 3] 0 with
    | none => none
    | some (f1, _, _) =>
      match f1.save memBackend b1 w1 with
      | ⟨err, b2, w2⟩ =>
        match b2.Create memBackend "a" w2 with
        | ⟨(_, st2), b3, w3⟩ =>
          some { firstCreate := st1, saveFailed := err, secondCreate := st2,
                 storedObject := look w3.env.remote "a",
                 attr := (b3.GetAttr memBackend "a" w3).ret }

/-- The adapter after a successful `save` of the 3-byte buffer of `sampleFile`. -/
def savedOnce : Outcome MemEnv Bool :=
  sampleFile.save memBackend newbundleS3FS ⟨emptyEnv 1000, []⟩

/-- A `save` of a 5-byte buffer under the same name while the store is
unreachable, after `savedOnce`. -/
def failedSave : Outcome MemEnv Bool :=
  bs3File.save memBackend { sampleFile with data := ⟨[1, 2, 3, 4, 5], []⟩ } savedOnce.fs
    ⟨{ savedOnce.world.env with offline := true }, savedOnce.world.trace⟩

/-- `OpenDir("")` at time 1000 on a fresh adapter over `sampleEnv`. -/
def firstListing : Outcome MemEnv (Option (List DirEntry) × Status) :=
  newbundleS3FS.OpenDir memBackend "" ⟨sampleEnv, []⟩

/-- `OpenDir("")` again at time 2000, the store being unreachable by then. -/
def staleListing : Outcome MemEnv (Option (List DirEntry) × Status) :=
  firstListing.fs.OpenDir memBackend ""
    ⟨{ firstListing.world.env with clock := 2000, offline := true }, firstListing.world.trace⟩

/-- A name of 48 bytes without separator. -/
def longName : String := "aaaaaaaaaaaaaaaaaaaaaaaaaaaaaaaaaaaaaaaaaaaaaaaa"

/-- An adapter whose size cache holds the entry 5 for `a`. -/
def cachedFs : bundleS3FS := { newbundleS3FS with fileSize := newbundleS3FS.fileSize.Set "a" 5 }

/-- The values observed along the run, from a fresh adapter over an empty
store, on the empty name: `Create("")`, `Write([1, 2, 3], 0)` on the handle,
`save`, `Unlink("")`, adapter `GetAttr("")`. -/
structure RootLog where
  create : Status
  saveFailed : Bool
  entryBefore : Option Nat
  unlink : Status
  entryAfter : Option Nat
  attr : Option Attr × Status
deriving DecidableEq, Repr

/-- The run described at `RootLog`; `none` if a step that has to succeed
does not. -/
def rootRun : Option RootLog :=
  match newbundleS3FS.Create memBackend "" ⟨emptyEnv 1000, []⟩ with
  | ⟨(none, _), _, _⟩ => none
  | ⟨(some f, st1), b1, w1⟩ =>
    match f.Write [1, 2, 3] 0 with
    | none => none
    | some (f1, _, _) =>
      match f1.save memBackend b1 w1 with
      | ⟨err, b2, w2⟩ =>
        match b2.Unlink memBackend "" w2 with
        | ⟨st2, b3, w3⟩ =>
          some { create := st1, saveFailed := err, entryBefore := b2.fileSize.peek "",
                 unlink := st2, entryAfter := b3.fileSize.peek "",
                 attr := (b3.GetAttr memBackend "" w3).ret }

/-- `Create("b")` at time 1000, right after `firstListing` fetched the list. -/
def afterCreate : Outcome MemEnv (Option bs3File × Status) :=
  firstListing.fs.Create memBackend "b" firstListing.world

/-- `OpenDir("")` one second after `afterCreate`, the store being unreachable
by then. -/
def offlineListing : Outcome MemEnv (Option (List DirEntry) × Status) :=
  afterCreate.fs.OpenDir memBackend ""
    ⟨{ afterCreate.world.env with clock := 1001, offline := true }, afterCreate.world.trace⟩

/-- The names the reference store holds. -/
def storedNames (e : MemEnv) : List String := e.remote.map (fun x => x.1)

/-! ## Lemmas on slices and on the handle operations -/

theorem slice_front (s : Slice) (n : Nat) (h : n ≤ s.len) :
    s.slice 0 (n : Int) = some ⟨s.vis.take n, (s.vis ++ s.hid).drop n⟩ := by
  have hc : (n : Int) ≤ (s.cap : Int) := by
    have : n ≤ s.cap := by unfold Slice.cap; unfold Slice.len at h; omega
    exact_mod_cast this
  unfold Slice.len at h
  simp [Slice.slice, hc, List.take_append_of_le_length h]

theorem copyAt_front (tmp src : List UInt8) (n : Nat) (h : n ≤ tmp.length)
    (hs : src.length = n) :
    copyAt tmp 0 (n : Int) src = some (src ++ tmp.drop n) := by
  have hc : (n : Int) ≤ (tmp.length : Int) := by exact_mod_cast h
  simp [copyAt, hc, hs]

theorem copyAt_mid (tmp src : List UInt8) (n : Nat) (h : n + src.length ≤ tmp.length) :
    copyAt tmp (n : Int) ((n : Int) + (src.length : Int)) src
      = some (tmp.take n ++ src ++ tmp.drop (n + src.length)) := by
  have hc : (n : Int) + (src.length : Int) ≤ (tmp.length : Int) := by exact_mod_cast h
  simp [copyAt, hc]

/-- What `Write` computes at an offset inside the buffer: the old bytes before
the offset, the content, and zero bytes up to the old length. -/
theorem Write_inside (f : bs3File) (c : List UInt8) (n : Nat) (h : n ≤ f.data.len) :
    f.Write c (n : Int)
      = some ({ f with data := ⟨f.data.vis.take n ++ c
                  ++ List.replicate (f.data.len - (n + c.length)) 0, []⟩ },
              (max f.data.len (n + c.length)) % 2 ^ 32, Status.OK) := by
  have hsz : (if (n : Int) + (c.length : Int) > (f.data.len : Int)
      then (n : Int) + (c.length : Int) else (f.data.len : Int))
      = ((max f.data.len (n + c.length) : Nat) : Int) := by
    split <;> omega
  have hnot : ¬ (((max f.data.len (n + c.length) : Nat) : Int) < (f.data.len : Int)) := by omega
  have hlen : (f.data.vis.take n).length = n := by
    unfold Slice.len at h
    simp [h]
  unfold bs3File.Write
  simp only [hsz, Int.toNat_ofNat, hnot, if_false]
  rw [slice_front f.data n h]
  dsimp only
  rw [copyAt_front _ _ n (by simp [make]) hlen]
  have h2 : copyAt (f.data.vis.take n ++ (make (max f.data.len (n + c.length))).drop n)
      (n : Int) ((n : Int) + (c.length : Int)) c
      = some ((f.data.vis.take n ++ (make (max f.data.len (n + c.length))).drop n).take n ++ c
          ++ (f.data.vis.take n ++ (make (max f.data.len (n + c.length))).drop n).drop (n + c.length)) := by
    apply copyAt_mid
    simp [make, hlen]
  dsimp only
  rw [h2]
  dsimp only
  have hd : (max f.data.len (n + c.length)) - n - c.length = f.data.len - (n + c.length) := by omega
  have e1 : (f.data.vis.take n ++ (make (max f.data.len (n + c.length))).drop n).take n
      = f.data.vis.take n := by
    rw [List.take_append_of_le_length (by omega)]
    rw [List.take_of_length_le (by omega)]
  have e2 : (f.data.vis.take n ++ (make (max f.data.len (n + c.length))).drop n).drop (n + c.length)
      = List.replicate (f.data.len - (n + c.length)) 0 := by
    rw [List.drop_append_eq_append_drop, hlen]
    rw [List.drop_of_length_le (by omega)]
    simp [make, hd]
  rw [e1, e2]
  simp
  congr 1
  unfold Slice.len at h ⊢
  omega


/-- `Read` at an offset beyond the length of the buffer panics:
`f.data[off:end]` has `end = len(f.data) < off`. -/
theorem Read_beyond_end (f : bs3File) (n : Nat) (o : Int) (h : (f.data.len : Int) < o) :
    f.Read n o = none := by
  have hne : ¬ (0 ≤ o ∧ o ≤ (if o + (n : Int) > (f.data.len : Int) then (f.data.len : Int)
      else o + (n : Int)) ∧ (if o + (n : Int) > (f.data.len : Int) then (f.data.len : Int)
      else o + (n : Int)) ≤ (f.data.cap : Int)) := by
    intro hh
    have h2 := hh.2.1
    split at h2 <;> omega
  simp only [bs3File.Read, Slice.slice, hne, if_false]

/-- `Write` at an offset beyond the capacity of the buffer panics
in `f.data[:off]`. -/
theorem Write_beyond_cap (f : bs3File) (c : List UInt8) (o : Int) (h : (f.data.cap : Int) < o) :
    f.Write c o = none := by
  have hne : ¬ ((0 : Int) ≤ 0 ∧ 0 ≤ o ∧ o ≤ (f.data.cap : Int)) := by omega
  simp only [bs3File.Write, Slice.slice, hne, if_false]

/-- `Read` inside the buffer returns the bytes from the offset to the
end of the request or of the buffer. -/
theorem Read_inside (f : bs3File) (k n : Nat) (h : n ≤ f.data.len) :
    f.Read k (n : Int) = some ((f.data.vis.take (min (n + k) f.data.len)).drop n, Status.OK) := by
  have he : (if (n : Int) + (k : Int) > (f.data.len : Int) then (f.data.len : Int)
      else (n : Int) + (k : Int)) = ((min (n + k) f.data.len : Nat) : Int) := by
    split <;> omega
  have hc : ((min (n + k) f.data.len : Nat) : Int) ≤ (f.data.cap : Int) := by
    have : min (n + k) f.data.len ≤ f.data.cap := by unfold Slice.cap Slice.len; omega
    exact_mod_cast this
  have hm : (n : Int) ≤ ((min (n + k) f.data.len : Nat) : Int) := by omega
  have ht : min (n + k) f.data.len ≤ f.data.vis.length := by unfold Slice.len; omega
  unfold bs3File.Read
  simp only [he, Slice.slice, hc, hm, Int.toNat_ofNat, Int.ofNat_nonneg, and_self, if_true,
    List.take_append_of_le_length ht]

/-- The status of the listing scan of `GetAttr` is `OK` or `ENOENT`. -/
theorem scan_status (B : Backend σ) (b : bundleS3FS) (name : String) (w : World σ)
    (l : List String) :
    (GetAttr.scan B b name w l).ret.2 = Status.OK
      ∨ (GetAttr.scan B b name w l).ret.2 = Status.ENOENT := by
  induction l with
  | nil => right; rfl
  | cons n ns ih =>
    unfold GetAttr.scan
    split
    · unfold GetAttr.found callGet
      cases (B.get name w.env).1 with
      | none => right; rfl
      | some o => left; rfl
    · exact ih

/-! ## The claims -/

/-- C1 (the code departs from the claim): the name `a/b` contains the separator, yet
`isLegalName` accepts it (the loop compares the index, not the byte, with
47), so adapter `GetAttr` and `Create` never answer `EINVAL` for it and `Unlink`
answers `OK`, whatever the store and the adapter state. -/
theorem C1_separator_name_accepted (B : Backend σ) (b : bundleS3FS) (w : World σ) :
    (47 : UInt8) ∈ nameBytes "a/b" ∧ isLegalName "a/b" = true
      ∧ (b.GetAttr B "a/b" w).ret.2 ≠ Status.EINVAL
      ∧ (b.Create B "a/b" w).ret.2 ≠ Status.EINVAL
      ∧ (b.Unlink B "a/b" w).ret = Status.OK := by
  have hl : isLegalName "a/b" = true := by decide
  have hn : ¬ ("a/b" = "") := by decide
  refine ⟨by decide, hl, ?_, ?_, ?_⟩
  · unfold bundleS3FS.GetAttr
    simp only [hn, hl, if_false, Bool.not_true, Bool.false_eq_true]
    cases hg : b.fileSize.Get "a/b" with
    | mk r c1 =>
      cases r with
      | some s => simp
      | none =>
        dsimp only
        rcases scan_status B (updateList B { b with fileSize := c1 } w).1 "a/b"
          (updateList B { b with fileSize := c1 } w).2
          (updateList B { b with fileSize := c1 } w).1.l with h | h
        · rw [h]; decide
        · rw [h]; decide
  · unfold bundleS3FS.Create callNewObject callUpload
    simp only [hl, if_false, Bool.not_true, Bool.false_eq_true]
    cases (B.newObjectFromContent [] "a/b" w.env).1 with
    | none => simp
    | some o =>
      dsimp only
      cases (B.upload o (B.newObjectFromContent [] "a/b" w.env).2).1 <;> simp
  · unfold bundleS3FS.Unlink
    simp [hl]

/-- C2 (the code departs from the claim): for the name `a/b`, `Open` calls the store's
`Get`, `Create` calls `NewObjectFromContent` (and, when that succeeds,
`Upload`), and `Unlink` calls `Delete` and resets the listing timestamp to 0:
the legality check does not stop a name with a separator. -/
theorem C2_separator_name_reaches_store (B : Backend σ) (b : bundleS3FS) (w : World σ) :
    Call.get "a/b" ∈ (b.Open B "a/b" w).world.trace
      ∧ Call.newObject "a/b" ∈ (b.Create B "a/b" w).world.trace
      ∧ (b.Unlink B "a/b" w).world.trace = w.trace ++ [Call.delete "a/b"]
      ∧ (b.Unlink B "a/b" w).fs.cacheTime = 0 := by
  have hl : isLegalName "a/b" = true := by decide
  refine ⟨?_, ?_, ?_, ?_⟩
  · unfold bundleS3FS.Open callGet callReadFile
    simp only [hl, if_false, Bool.not_true, Bool.false_eq_true]
    cases (B.get "a/b" w.env).1 with
    | none => simp
    | some o =>
      dsimp only
      cases (B.readFile o.path (B.get "a/b" w.env).2).1 <;> simp
  · unfold bundleS3FS.Create callNewObject callUpload
    simp only [hl, if_false, Bool.not_true, Bool.false_eq_true]
    cases (B.newObjectFromContent [] "a/b" w.env).1 with
    | none => simp
    | some o =>
      dsimp only
      cases (B.upload o (B.newObjectFromContent [] "a/b" w.env).2).1 <;> simp
  · unfold bundleS3FS.Unlink callDelete
    simp [hl]
  · unfold bundleS3FS.Unlink
    simp [hl]

/-- C3 (the code departs from the claim): writing `[9]` at offset 0 into the buffer
`[1, 2, 3]` leaves `[9, 0, 0]`, not `[9, 2, 3]`: the guard `size < len(f.data)`
of the copy of the old tail never holds, so the bytes behind the written region
are zero. -/
theorem C3_Write_loses_tail :
    (sampleFile.Write [9] 0).map (fun r => r.1.data.vis) = some [9, 0, 0]
      ∧ sampleFile.data.vis.take 0 ++ [9] ++ sampleFile.data.vis.drop (0 + 1) = [9, 2, 3] := by
  decide

/-- C4 (the code departs from the claim): writing the single byte `[9]` at offset 0 into
the buffer `[1, 2, 3]` returns the count 3, the length of the resulting buffer,
and not 1, the number of bytes written. -/
theorem C4_Write_returns_buffer_length :
    (sampleFile.Write [9] 0).map (fun r => (r.2.1, r.2.2)) = some (3, Status.OK)
      ∧ ([9] : List UInt8).length = 1 := by
  decide

/-- C5 (the code departs from the claim): reading 4 bytes at offset 5 from the
3-byte buffer `[1, 2, 3]` panics (`f.data[5:3]`) instead of returning an empty
slice with status OK. -/
theorem C5_Read_past_end_panics :
    sampleFile.data.len = 3 ∧ sampleFile.Read 4 5 = none := by
  decide

/-- C6 (the code departs from the claim): on a freshly created handle, `Truncate(3)`
succeeds and leaves a buffer of length and capacity 3; a following `Write` of
`[9]` at offset 5, past the end, panics in `f.data[:5]` instead of succeeding. -/
theorem C6_Write_past_end_panics :
    ∃ g, createdFile.Truncate maxAlloc 3 = some (g, Status.OK) ∧ g.data.len = 3 ∧ g.data.cap = 3
      ∧ g.Write [9] 5 = none := by
  refine ⟨{ createdFile with data := ⟨[0, 0, 0], []⟩ }, ?_, ?_, ?_, ?_⟩ <;> decide

/-- C7: for every buffer, every content `c` and every offset `o` with
`0 <= o <= len(buffer)`, `Write(c, o)` succeeds with status OK and a following
`Read` with a destination of length `len(c)` at offset `o` returns exactly `c`
with status OK. -/
theorem C7_Write_then_Read (f : bs3File) (c : List UInt8) (o : Int)
    (h0 : 0 ≤ o) (h1 : o ≤ (f.data.len : Int)) :
    ∃ f1 n, f.Write c o = some (f1, n, Status.OK)
      ∧ f1.Read c.length o = some (c, Status.OK) := by
  obtain ⟨k, rfl⟩ := Int.eq_ofNat_of_zero_le h0
  have hk : k ≤ f.data.len := by exact_mod_cast h1
  have hv : k ≤ f.data.vis.length := hk
  refine ⟨_, _, Write_inside f c k hk, ?_⟩
  rw [Read_inside _ c.length k (by simp [Slice.len, hv])]
  have hm : min (k + c.length) (k + c.length + (f.data.len - (k + c.length))) = k + c.length := by
    omega
  have hlen : (f.data.vis.take k).length = k := by simp [hv]
  simp only [Slice.len, List.length_append, List.length_take, List.length_replicate,
    Nat.min_eq_left hv]
  simp only [Slice.len] at hm
  rw [hm, List.append_assoc, List.drop_take]
  rw [List.drop_append_eq_append_drop, hlen, List.drop_of_length_le (by omega)]
  simp

/-- C7, at the buffer `[1, 2, 3]`, the content `[9, 8]` and the offset 2. -/
theorem C7_Write_then_Read_witness :
    (0 : Int) ≤ 2 ∧ (2 : Int) ≤ (sampleFile.data.len : Int)
      ∧ ∃ f1 n, sampleFile.Write [9, 8] 2 = some (f1, n, Status.OK)
        ∧ f1.Read ([9, 8] : List UInt8).length 2 = some ([9, 8], Status.OK) :=
  ⟨by decide, by decide, C7_Write_then_Read sampleFile [9, 8] 2 (by decide) (by decide)⟩

/-- C8 (the code departs from the claim): from a fresh adapter, `Create("a")`, a write of
three bytes and a successful `save` leave the size-cache entry 3 for `a`; a
second successful `Create("a")` stores a zero-length object but does not touch
the size cache, so the `GetAttr("a")` that follows reports size 3, not 0. -/
theorem C8_GetAttr_after_recreate_is_stale :
    recreateRun = some
      { firstCreate := Status.OK, saveFailed := false, secondCreate := Status.OK,
        storedObject := some [],
        attr := (some ⟨S_IFREG ||| 0o755, 3⟩, Status.OK) } := by
  decide

/-- C9 (the code departs from the claim): after a successful `save` of 3 bytes the
size-cache entry of `a` is 3; a later `save` of a 5-byte buffer whose upload
fails returns the error and still sets the entry to 5 (and resets the listing
timestamp): the assignments after `Upload` are not guarded by the error. -/
theorem C9_failed_save_updates_size_cache :
    savedOnce.ret = false ∧ savedOnce.fs.fileSize.peek "a" = some 3
      ∧ failedSave.ret = true
      ∧ failedSave.world.trace.getLast? = some (Call.upload "a")
      ∧ failedSave.fs.fileSize.peek "a" = some 5
      ∧ failedSave.fs.cacheTime = 0 := by
  decide

/-- C10 (counterexample): a listing fetched at time 1000 is returned by
`OpenDir("")` at time 2000 when the store's `List` call fails: the age of the
listing used is 1000 seconds. -/
theorem C10_stale_listing_returned :
    firstListing.fs.cacheTime = 1000
      ∧ staleListing.ret = (some [⟨"a", S_IFREG⟩], Status.OK)
      ∧ staleListing.world.trace.getLast? = some (Call.list "")
      ∧ memBackend.now staleListing.world.env - staleListing.fs.cacheTime = 1000
      ∧ ¬ (memBackend.now staleListing.world.env - staleListing.fs.cacheTime ≤ 300) := by
  decide

/-- C10 (amended): `OpenDir("")` returns, and the listing scan of adapter
`GetAttr` (legal non-empty name without size-cache entry) scans, the list left
by `updateList`; the age of that list, the clock minus the listing timestamp,
is at most 300 seconds, unless the listing was older, the refresh was
attempted and the store's `List` call failed, in which case the previous
snapshot is used unchanged. -/
theorem C10_listing_fresh_or_refresh_failed (B : Backend σ) (b : bundleS3FS) (w : World σ)
    (name : String) (hne : name ≠ "") (hleg : isLegalName name = true)
    (hmiss : b.fileSize.peek name = none) :
    (B.now (updateList B b w).2.env - (updateList B b w).1.cacheTime ≤ 300
        ∨ (B.now w.env - b.cacheTime > 300 ∧ (B.list "" w.env).1 = none
            ∧ (updateList B b w).1 = b
            ∧ (updateList B b w).2.trace = w.trace ++ [Call.list ""]))
      ∧ b.OpenDir B "" w
          = ⟨(some ((updateList B b w).1.l.map (fun n => ⟨n, S_IFREG⟩)), Status.OK),
              (updateList B b w).1, (updateList B b w).2⟩
      ∧ b.GetAttr B name w
          = GetAttr.scan B (updateList B b w).1 name (updateList B b w).2
              (updateList B b w).1.l := by
  refine ⟨?_, ?_, ?_⟩
  · unfold updateList callList
    by_cases hs : B.now w.env - b.cacheTime > 300
    · simp only [hs, if_true]
      cases hl : (B.list "" w.env).1 with
      | none => right; simp
      | some l => left; simp
    · simp only [hs, if_false]
      left
      omega
  · simp [bundleS3FS.OpenDir]
  · have hget : b.fileSize.Get name = (none, b.fileSize) := by
      simp [Cache.Get, hmiss]
    unfold bundleS3FS.GetAttr
    simp only [hne, hleg, hget, if_false, Bool.not_true, Bool.false_eq_true]

/-- C10 (amended), at a fresh adapter over a store that holds `a`, for the
name `a`. -/
theorem C10_listing_fresh_or_refresh_failed_witness :
    "a" ≠ "" ∧ isLegalName "a" = true ∧ newbundleS3FS.fileSize.peek "a" = none
      ∧ newbundleS3FS.OpenDir memBackend "" ⟨sampleEnv, []⟩
          = ⟨(some ((updateList memBackend newbundleS3FS ⟨sampleEnv, []⟩).1.l.map
                (fun n => ⟨n, S_IFREG⟩)), Status.OK),
              (updateList memBackend newbundleS3FS ⟨sampleEnv, []⟩).1,
              (updateList memBackend newbundleS3FS ⟨sampleEnv, []⟩).2⟩ :=
  ⟨by decide, by decide, by decide,
    (C10_listing_fresh_or_refresh_failed memBackend newbundleS3FS ⟨sampleEnv, []⟩ "a"
      (by decide) (by decide) (by decide)).2.1⟩

/-! ## Truncate, Read and the legality check -/

/-- The zeroing loop of `Truncate` stays inside the array and changes nothing
on a region that `make` left zero. -/
theorem zeroFill_zeros (n : Nat) :
    ∀ (pre : List UInt8) (m : Nat), n ≤ m →
      bs3File.zeroFill n pre.length (pre ++ List.replicate m 0)
        = some (pre ++ List.replicate m 0) := by
  induction n with
  | zero => intro pre m _; rfl
  | succ k ih =>
    intro pre m hm
    obtain ⟨j, rfl⟩ : ∃ j, m = j + 1 := ⟨m - 1, by omega⟩
    have hset : setAt (pre ++ List.replicate (j + 1) 0) pre.length 0
        = some (pre ++ List.replicate (j + 1) 0) := by
      simp [setAt, List.replicate_succ]
    have hsplit : pre ++ List.replicate (j + 1) (0 : UInt8)
        = (pre ++ [0]) ++ List.replicate j 0 := by
      simp [List.replicate_succ]
    have hlen : (pre ++ [(0 : UInt8)]).length = pre.length + 1 := by simp
    unfold bs3File.zeroFill
    rw [hset]
    dsimp only
    rw [hsplit, ← hlen]
    exact ih (pre ++ [0]) j (by omega)

/-- The conversion `int(size)` is the identity up to `maxAlloc`. -/
theorem intOfUint64_small (size : Nat) (h : size ≤ maxAlloc) :
    size % 2 ^ 64 = size ∧ intOfUint64 size = (size : Int) := by
  have hm : size % 2 ^ 64 = size := by
    apply Nat.mod_eq_of_lt
    unfold maxAlloc at h
    omega
  refine ⟨hm, ?_⟩
  unfold intOfUint64
  rw [hm]
  have hlt : size < 2 ^ 63 := by
    unfold maxAlloc at h
    omega
  rw [if_pos hlt]

/-- `Truncate` fails in `make` for every size beyond `maxAlloc`, whatever the
runtime has available. -/
theorem Truncate_beyond_maxAlloc (f : bs3File) (avail size : Nat)
    (h : maxAlloc < size % 2 ^ 64) : f.Truncate avail size = none := by
  have hno : ¬ (0 ≤ intOfUint64 size ∧ intOfUint64 size ≤ (maxAlloc : Int)
      ∧ size % 2 ^ 64 ≤ avail) := by
    intro hh
    have h0 := hh.1
    have h1 := hh.2.1
    unfold intOfUint64 at h0 h1
    have hb : size % 2 ^ 64 < 2 ^ 64 := Nat.mod_lt _ (by norm_num)
    split at h0
    · have : ((size % 2 ^ 64 : Nat) : Int) ≤ (maxAlloc : Int) := by
        rw [if_pos (by assumption)] at h1
        exact h1
      omega
    · omega
  simp only [bs3File.Truncate, makeUint64, hno, if_false]

/-- What `Truncate` computes for a size the runtime can allocate: the first
`size` bytes of the buffer, followed by zero bytes up to `size`. -/
theorem Truncate_eq (f : bs3File) (avail size : Nat) (h1 : size ≤ maxAlloc)
    (h2 : size ≤ avail) :
    f.Truncate avail size
      = some ({ f with data := ⟨f.data.vis.take size
                  ++ List.replicate (size - f.data.len) 0, []⟩ }, Status.OK) := by
  obtain ⟨hmod, hint⟩ := intOfUint64_small size h1
  have hmk : makeUint64 avail size = some (make size) := by
    unfold makeUint64
    rw [hint, hmod]
    have hA : (0 : Int) ≤ (size : Int) ∧ (size : Int) ≤ (maxAlloc : Int) ∧ size ≤ avail :=
      ⟨Int.ofNat_nonneg _, by exact_mod_cast h1, h2⟩
    simp only [hA, and_self, if_true]
  have hs : (if (size : Int) < (f.data.len : Int) then (size : Int) else (f.data.len : Int))
      = ((min size f.data.len : Nat) : Int) := by
    split <;> omega
  have hle : min size f.data.len ≤ f.data.len := by omega
  have hlen : (f.data.vis.take (min size f.data.len)).length = min size f.data.len := by
    simp [Slice.len]
  have htake : f.data.vis.take (min size f.data.len) = f.data.vis.take size := by
    by_cases h : size ≤ f.data.len
    · rw [Nat.min_eq_left h]
    · have h1 : f.data.vis.length ≤ size := by unfold Slice.len at h; omega
      have h2 : f.data.vis.length ≤ min size f.data.len := by unfold Slice.len; omega
      rw [List.take_of_length_le h1, List.take_of_length_le h2]
  have hsub : size - min size f.data.len = size - f.data.len := by omega
  have hcnt : ((size : Int) - ((min size f.data.len : Nat) : Int)).toNat
      = size - min size f.data.len := by omega
  unfold bs3File.Truncate
  rw [hmk]
  simp only [hint, hs, hcnt, Int.toNat_ofNat]
  rw [slice_front f.data _ hle]
  dsimp only
  rw [copyAt_front _ _ (min size f.data.len) (by simp [make]) hlen]
  dsimp only
  have hz := zeroFill_zeros (size - min size f.data.len)
    (f.data.vis.take (min size f.data.len)) (size - min size f.data.len) (Nat.le_refl _)
  rw [hlen] at hz
  have hdrop : (make size).drop (min size f.data.len)
      = List.replicate (size - min size f.data.len) 0 := by
    simp [make]
  rw [hdrop, hz]
  dsimp only
  rw [htake, hsub]

/-- The loop of `isLegalName` answers `false` exactly when 47 is among the
values it is run on. -/
theorem isLegalName_loop_eq_false (l : List Nat) :
    isLegalName.loop l = false ↔ 47 ∈ l := by
  induction l with
  | nil => simp [isLegalName.loop]
  | cons c cs ih =>
    unfold isLegalName.loop
    by_cases h : c = 47
    · simp [h]
    · have h2 : ¬ (47 = c) := fun e => h e.symm
      simp [h, h2, ih]

/-- `isLegalName` rejects a name exactly when it has 48 bytes or more. -/
theorem isLegalName_eq_false_iff (name : String) :
    isLegalName name = false ↔ 48 ≤ (nameBytes name).length := by
  unfold isLegalName
  rw [isLegalName_loop_eq_false, List.mem_range]
  omega

/-- C12 (counterexample): `Truncate(2^50)` on the buffer `[1, 2, 3]` fails in
`make([]byte, size)` even with all of `2^64` bytes available, and so does
`Truncate(2^63)`, whose `int(size)` is negative: no buffer of that length is
left. -/
theorem C12_Truncate_huge_size_panics :
    sampleFile.Truncate (2 ^ 64) (2 ^ 50) = none
      ∧ intOfUint64 (2 ^ 63) = -(2 ^ 63)
      ∧ sampleFile.Truncate (2 ^ 64) (2 ^ 63) = none := by
  refine ⟨Truncate_beyond_maxAlloc _ _ _ (by norm_num [maxAlloc]), by norm_num [intOfUint64],
    Truncate_beyond_maxAlloc _ _ _ (by norm_num [maxAlloc])⟩

/-- C12 (amended): for every buffer `b` and every size that `make` can
allocate (at most `maxAlloc` and at most what the runtime has available),
`Truncate(size)` succeeds with status OK and leaves a buffer of length exactly
`size`, which the handle's `GetAttr` reports; its first `min(size, len(b))`
bytes are those of `b` and all its bytes from index `len(b)` on are zero. -/
theorem C12_Truncate_resizes_and_zero_fills (f : bs3File) (avail size : Nat)
    (h1 : size ≤ maxAlloc) (h2 : size ≤ avail) :
    ∃ g, f.Truncate avail size = some (g, Status.OK)
      ∧ g.data.len = size
      ∧ g.GetAttr = (⟨S_IFREG ||| 0o755, size⟩, Status.OK)
      ∧ g.data.vis.take (min size f.data.len) = f.data.vis.take (min size f.data.len)
      ∧ g.data.vis.drop f.data.len = List.replicate (size - f.data.len) 0
      ∧ g.name = f.name ∧ g.o = f.o := by
  refine ⟨_, Truncate_eq f avail size h1 h2, ?_, ?_, ?_, ?_, rfl, rfl⟩
  · simp only [Slice.len, List.length_append, List.length_take, List.length_replicate]
    omega
  · simp only [bs3File.GetAttr, Slice.len, List.length_append, List.length_take,
      List.length_replicate]
    congr 2
    omega
  · by_cases h : size ≤ f.data.len
    · have h0 : size - f.data.len = 0 := by omega
      simp [h0, Nat.min_eq_left h]
    · have h1 : f.data.vis.length ≤ size := by unfold Slice.len at h; omega
      have h2 : min size f.data.len = f.data.vis.length := by unfold Slice.len; omega
      rw [h2, List.take_of_length_le h1]
      simp
  · by_cases h : size ≤ f.data.len
    · have h0 : size - f.data.len = 0 := by omega
      have h1 : (f.data.vis.take size).length ≤ f.data.len := by
        simp only [List.length_take, Slice.len]; omega
      simp [h0, List.drop_of_length_le h1]
    · have h1 : f.data.vis.length ≤ size := by unfold Slice.len at h; omega
      rw [List.take_of_length_le h1]
      simp [Slice.len]

/-- C12 (amended), at the buffer `[1, 2, 3]`: `Truncate(5)` leaves
`[1, 2, 3, 0, 0]`, `Truncate(2)` leaves `[1, 2]`. -/
theorem C12_Truncate_resizes_and_zero_fills_witness :
    (5 ≤ maxAlloc ∧ 5 ≤ 2 ^ 30)
      ∧ (∃ g, sampleFile.Truncate (2 ^ 30) 5 = some (g, Status.OK)
          ∧ g.data.len = 5
          ∧ g.GetAttr = (⟨S_IFREG ||| 0o755, 5⟩, Status.OK)
          ∧ g.data.vis.take (min 5 sampleFile.data.len)
              = sampleFile.data.vis.take (min 5 sampleFile.data.len)
          ∧ g.data.vis.drop sampleFile.data.len = List.replicate (5 - sampleFile.data.len) 0
          ∧ g.name = sampleFile.name ∧ g.o = sampleFile.o)
      ∧ (sampleFile.Truncate (2 ^ 30) 5).map (fun r => r.1.data.vis) = some [1, 2, 3, 0, 0]
      ∧ (sampleFile.Truncate (2 ^ 30) 2).map (fun r => r.1.data.vis) = some [1, 2] :=
  ⟨⟨by norm_num [maxAlloc], by norm_num⟩,
    C12_Truncate_resizes_and_zero_fills sampleFile (2 ^ 30) 5 (by norm_num [maxAlloc])
      (by norm_num),
    by decide, by decide⟩

/-- C17: for every buffer `b`, requested length `n` and offset `o` with
`0 <= o <= len(b)`, `Read` returns status OK and exactly the bytes
`b[o : min(o+n, len(b))]`; the operation has no effect on the handle (it
returns only the bytes and the status). -/
theorem C17_Read_returns_range (f : bs3File) (n : Nat) (o : Int)
    (h0 : 0 ≤ o) (h1 : o ≤ (f.data.len : Int)) :
    f.Read n o
      = some ((f.data.vis.take (min (o.toNat + n) f.data.len)).drop o.toNat, Status.OK) := by
  obtain ⟨k, rfl⟩ := Int.eq_ofNat_of_zero_le h0
  have hk : k ≤ f.data.len := by exact_mod_cast h1
  simpa using Read_inside f n k hk

/-- C17, at the buffer `[1, 2, 3]`: four bytes requested at offset 1 give the
short read `[2, 3]`. -/
theorem C17_Read_returns_range_witness :
    (0 : Int) ≤ 1 ∧ (1 : Int) ≤ (sampleFile.data.len : Int)
      ∧ sampleFile.Read 4 1 = some ([2, 3], Status.OK) :=
  ⟨by decide, by decide, C17_Read_returns_range sampleFile 4 1 (by decide) (by decide)⟩

/-- C19: `isLegalName` depends only on the number of bytes of the name: it
answers `false` exactly when the name has 48 bytes or more, so every shorter
name is accepted, and adapter `GetAttr`, `Create` and `Unlink` answer `EINVAL`
for every name of 48 bytes or more (whether or not it contains a separator),
without a store call or a change of the adapter. -/
theorem C19_isLegalName_depends_on_length_only (B : Backend σ) (b : bundleS3FS) (w : World σ)
    (name : String) :
    (isLegalName name = false ↔ 48 ≤ (nameBytes name).length)
      ∧ ((nameBytes name).length < 48 → isLegalName name = true)
      ∧ (48 ≤ (nameBytes name).length →
          b.GetAttr B name w = ⟨(none, Status.EINVAL), b, w⟩
            ∧ b.Create B name w = ⟨(none, Status.EINVAL), b, w⟩
            ∧ b.Unlink B name w = ⟨Status.EINVAL, b, w⟩) := by
  refine ⟨isLegalName_eq_false_iff name, ?_, ?_⟩
  · intro h
    cases hl : isLegalName name with
    | true => rfl
    | false =>
      have := (isLegalName_eq_false_iff name).1 hl
      omega
  · intro h
    have hl : isLegalName name = false := (isLegalName_eq_false_iff name).2 h
    have hne : ¬ (name = "") := by
      intro e
      subst e
      have h0 : (nameBytes "").length = 0 := by decide
      omega
    refine ⟨?_, ?_, ?_⟩
    · simp [bundleS3FS.GetAttr, hne, hl]
    · simp [bundleS3FS.Create, hl]
    · simp [bundleS3FS.Unlink, hl]

/-- C19, at a name of 48 letters `a`: it holds no separator and is rejected by
all three operations. -/
theorem C19_isLegalName_depends_on_length_only_witness :
    (47 : UInt8) ∉ nameBytes longName ∧ 48 ≤ (nameBytes longName).length
      ∧ newbundleS3FS.GetAttr memBackend longName ⟨sampleEnv, []⟩
          = ⟨(none, Status.EINVAL), newbundleS3FS, ⟨sampleEnv, []⟩⟩
      ∧ newbundleS3FS.Create memBackend longName ⟨sampleEnv, []⟩
          = ⟨(none, Status.EINVAL), newbundleS3FS, ⟨sampleEnv, []⟩⟩
      ∧ newbundleS3FS.Unlink memBackend longName ⟨sampleEnv, []⟩
          = ⟨Status.EINVAL, newbundleS3FS, ⟨sampleEnv, []⟩⟩ :=
  ⟨by decide, by decide,
    (C19_isLegalName_depends_on_length_only memBackend newbundleS3FS ⟨sampleEnv, []⟩
      longName).2.2 (by decide)⟩

/-! ## The adapter operations -/

/-- `updateList` leaves the size cache alone. -/
theorem updateList_fileSize (B : Backend σ) (b : bundleS3FS) (w : World σ) :
    (updateList B b w).1.fileSize = b.fileSize := by
  unfold updateList callList
  split
  · cases (B.list "" w.env).1 <;> rfl
  · rfl

/-- The listing scan of `GetAttr` over a list without the name ends in
`ENOENT`, with no call and no change. -/
theorem scan_absent (B : Backend σ) (b : bundleS3FS) (name : String) (w : World σ)
    (l : List String) (h : name ∉ l) :
    GetAttr.scan B b name w l = ⟨(none, Status.ENOENT), b, w⟩ := by
  induction l with
  | nil => rfl
  | cons n ns ih =>
    have hn : ¬ (n = name) := fun e => h (by simp [e])
    have hns : name ∉ ns := fun e => h (by simp [e])
    unfold GetAttr.scan
    simp only [hn, if_false]
    exact ih hns

/-- A size-cache hit returns the recorded size and keeps it recorded. -/
theorem Cache_Get_hit (c : Cache) (k : String) (v : Nat) (h : c.peek k = some v) :
    (c.Get k).1 = some v ∧ (c.Get k).2.peek k = some v := by
  unfold Cache.Get
  rw [h]
  simp [Cache.peek]

/-- C14: for every name that passes `isLegalName`, if `NewObjectFromContent`
fails or the upload of the zero-length object fails, `Create` returns no
handle and the error status `ENOENT`, and the adapter is unchanged: the listing
timestamp, the cached name list and the size cache are those before the call. -/
theorem C14_failed_Create_changes_nothing (B : Backend σ) (b : bundleS3FS) (w : World σ)
    (name : String) (hleg : isLegalName name = true)
    (hfail : (B.newObjectFromContent [] name w.env).1 = none
      ∨ ∃ o, (B.newObjectFromContent [] name w.env).1 = some o
          ∧ (B.upload o (B.newObjectFromContent [] name w.env).2).1 = true) :
    (b.Create B name w).ret = (none, Status.ENOENT)
      ∧ (b.Create B name w).ret.2 ≠ Status.OK
      ∧ (b.Create B name w).fs = b := by
  unfold bundleS3FS.Create callNewObject callUpload
  simp only [hleg, if_false, Bool.not_true, Bool.false_eq_true]
  rcases hfail with h | ⟨o, h1, h2⟩
  · simp [h]
  · simp [h1, h2]

/-- C14, at the name `a` over an unreachable store: the upload fails. -/
theorem C14_failed_Create_changes_nothing_witness :
    isLegalName "a" = true
      ∧ (cachedFs.Create memBackend "a" ⟨{ sampleEnv with offline := true }, []⟩).ret
          = (none, Status.ENOENT)
      ∧ (cachedFs.Create memBackend "a" ⟨{ sampleEnv with offline := true }, []⟩).ret.2
          ≠ Status.OK
      ∧ (cachedFs.Create memBackend "a" ⟨{ sampleEnv with offline := true }, []⟩).fs
          = cachedFs :=
  ⟨by decide,
    C14_failed_Create_changes_nothing memBackend cachedFs
      ⟨{ sampleEnv with offline := true }, []⟩ "a" (by decide)
      (Or.inr ⟨⟨"a", scratchPath "a"⟩, by decide, by decide⟩)⟩

/-- C15: for every non-empty name `OpenDir` returns `ENOENT` with no entries,
no call and no change of the adapter; `OpenDir("")` returns OK with one entry
per name of the list left by `updateList` (the cached list, refreshed if
stale), in the same order, entry `i` carrying name `i` and the mode
`S_IFREG`. -/
theorem C15_OpenDir_root_only (B : Backend σ) (b : bundleS3FS) (w : World σ)
    (name : String) (hne : name ≠ "") :
    b.OpenDir B name w = ⟨(none, Status.ENOENT), b, w⟩
      ∧ ∃ entries, (b.OpenDir B "" w).ret = (some entries, Status.OK)
          ∧ (b.OpenDir B "" w).fs = (updateList B b w).1
          ∧ (b.OpenDir B "" w).world = (updateList B b w).2
          ∧ entries.length = (updateList B b w).1.l.length
          ∧ ∀ i : Nat, entries[i]?
              = ((updateList B b w).1.l[i]?).map (fun n => (⟨n, S_IFREG⟩ : DirEntry)) := by
  refine ⟨by simp [bundleS3FS.OpenDir, hne],
    (updateList B b w).1.l.map (fun n => (⟨n, S_IFREG⟩ : DirEntry)), ?_, ?_, ?_, ?_, ?_⟩
  · simp [bundleS3FS.OpenDir]
  · simp [bundleS3FS.OpenDir]
  · simp [bundleS3FS.OpenDir]
  · simp
  · intro i
    simp

/-- C15, at the name `x` and a fresh adapter over a store that holds `a`. -/
theorem C15_OpenDir_root_only_witness :
    "x" ≠ "" ∧ newbundleS3FS.OpenDir memBackend "x" ⟨sampleEnv, []⟩
      = ⟨(none, Status.ENOENT), newbundleS3FS, ⟨sampleEnv, []⟩⟩ :=
  ⟨by decide,
    (C15_OpenDir_root_only memBackend newbundleS3FS ⟨sampleEnv, []⟩ "x" (by decide)).1⟩

/-- A size-cache hit in adapter `GetAttr`: the recorded size is returned and
no call is made. -/
theorem GetAttr_hit (B : Backend σ) (b : bundleS3FS) (w : World σ) (name : String) (s : Nat)
    (hne : name ≠ "") (hleg : isLegalName name = true) (hs : b.fileSize.peek name = some s) :
    (b.GetAttr B name w).ret = (some ⟨S_IFREG ||| 0o755, s⟩, Status.OK)
      ∧ (b.GetAttr B name w).world = w := by
  have h1 := (Cache_Get_hit b.fileSize name s hs).1
  have hg : b.fileSize.Get name = (some s, (b.fileSize.Get name).2) := by
    rw [← h1]
  unfold bundleS3FS.GetAttr
  simp only [hne, hleg, if_false, Bool.not_true, Bool.false_eq_true]
  rw [hg]
  exact ⟨rfl, rfl⟩

/-- The resolution order of adapter `GetAttr` for the names that pass
`isLegalName`: `GetAttr("")` returns OK with a directory attribute, makes no
call and changes nothing.  For a non-empty name that passes `isLegalName`: with
a size-cache entry `s` it returns a regular file of size `s`, makes no call and
leaves the list, the listing timestamp and the entry as they are; with no
size-cache entry and the name absent from the list left by `updateList`, it
returns `ENOENT`, and the size cache is unchanged. -/
theorem GetAttr_resolution_order (B : Backend σ) (b : bundleS3FS) (w : World σ)
    (name : String) (hne : name ≠ "") (hleg : isLegalName name = true) :
    b.GetAttr B "" w = ⟨(some ⟨S_IFDIR ||| 0o755, 0⟩, Status.OK), b, w⟩
      ∧ (∀ s, b.fileSize.peek name = some s →
          (b.GetAttr B name w).ret = (some ⟨S_IFREG ||| 0o755, s⟩, Status.OK)
            ∧ (b.GetAttr B name w).world = w
            ∧ (b.GetAttr B name w).fs.l = b.l
            ∧ (b.GetAttr B name w).fs.cacheTime = b.cacheTime
            ∧ (b.GetAttr B name w).fs.fileSize.peek name = some s)
      ∧ (b.fileSize.peek name = none → name ∉ (updateList B b w).1.l →
          (b.GetAttr B name w).ret = (none, Status.ENOENT)
            ∧ (b.GetAttr B name w).fs = (updateList B b w).1
            ∧ (b.GetAttr B name w).world = (updateList B b w).2
            ∧ (b.GetAttr B name w).fs.fileSize = b.fileSize) := by
  refine ⟨by simp [bundleS3FS.GetAttr], ?_, ?_⟩
  · intro s hs
    obtain ⟨h1, h2⟩ := Cache_Get_hit b.fileSize name s hs
    have hg : b.fileSize.Get name = (some s, (b.fileSize.Get name).2) := by
      rw [← h1]
    unfold bundleS3FS.GetAttr
    simp only [hne, hleg, if_false, Bool.not_true, Bool.false_eq_true]
    rw [hg]
    exact ⟨rfl, rfl, rfl, rfl, h2⟩
  · intro hmiss habs
    have hget : b.fileSize.Get name = (none, b.fileSize) := by
      simp [Cache.Get, hmiss]
    have hb : ({ b with fileSize := b.fileSize } : bundleS3FS) = b := rfl
    unfold bundleS3FS.GetAttr
    simp only [hne, hleg, hget, if_false, Bool.not_true, Bool.false_eq_true, hb]
    rw [scan_absent B _ name _ _ habs]
    exact ⟨rfl, rfl, rfl, updateList_fileSize B b w⟩

/-- The resolution order at the name `a`: a hit on an adapter whose size
cache holds 5 for `a`, and a miss on a fresh adapter over an empty store. -/
theorem GetAttr_resolution_order_at_a :
    ("a" ≠ "" ∧ isLegalName "a" = true)
      ∧ (cachedFs.fileSize.peek "a" = some 5
          ∧ (cachedFs.GetAttr memBackend "a" ⟨sampleEnv, []⟩).ret
              = (some ⟨S_IFREG ||| 0o755, 5⟩, Status.OK)
          ∧ (cachedFs.GetAttr memBackend "a" ⟨sampleEnv, []⟩).world.trace = [])
      ∧ (newbundleS3FS.fileSize.peek "a" = none
          ∧ "a" ∉ (updateList memBackend newbundleS3FS ⟨emptyEnv 1000, []⟩).1.l
          ∧ (newbundleS3FS.GetAttr memBackend "a" ⟨emptyEnv 1000, []⟩).ret
              = (none, Status.ENOENT)) :=
  ⟨⟨by decide, by decide⟩,
    ⟨by decide,
      ((GetAttr_resolution_order memBackend cachedFs ⟨sampleEnv, []⟩ "a"
        (by decide) (by decide)).2.1 5 (by decide)).1,
      congrArg World.trace
        ((GetAttr_resolution_order memBackend cachedFs ⟨sampleEnv, []⟩ "a"
          (by decide) (by decide)).2.1 5 (by decide)).2.1⟩,
    ⟨by decide, by decide,
      ((GetAttr_resolution_order memBackend newbundleS3FS ⟨emptyEnv 1000, []⟩ "a"
        (by decide) (by decide)).2.2 (by decide) (by decide)).1⟩⟩

/-- C16 (the code departs from the claim): the name of 48 letters `a` is legal
(no separator) and non-empty, has no size-cache entry on a fresh adapter and is
absent from the listing of a store that holds only `a`; adapter `GetAttr`
answers `EINVAL` for it, before looking at the size cache or the listing, and
not `ENOENT`: `isLegalName` compares the index, not the byte, with 47. -/
theorem C16_long_legal_name_gets_EINVAL :
    (47 : UInt8) ∉ nameBytes longName ∧ longName ≠ ""
      ∧ newbundleS3FS.fileSize.peek longName = none
      ∧ longName ∉ (updateList memBackend newbundleS3FS ⟨sampleEnv, []⟩).1.l
      ∧ (newbundleS3FS.GetAttr memBackend longName ⟨sampleEnv, []⟩).ret
          = (none, Status.EINVAL)
      ∧ (newbundleS3FS.GetAttr memBackend longName ⟨sampleEnv, []⟩).world.trace = [] := by
  decide

/-- C20 (counterexample): the empty name passes `isLegalName` and, after
`Create("")`, a write of three bytes and a successful `save`, has the
size-cache entry 3; `Unlink("")` keeps the entry, but the `GetAttr("")` that
follows returns the directory attribute of the root, not a regular file of
size 3. -/
theorem C20_root_name_reports_directory :
    isLegalName "" = true
      ∧ rootRun = some
          { create := Status.OK, saveFailed := false, entryBefore := some 3,
            unlink := Status.OK, entryAfter := some 3,
            attr := (some ⟨S_IFDIR ||| 0o755, 0⟩, Status.OK) }
      ∧ (⟨S_IFDIR ||| 0o755, 0⟩ : Attr) ≠ ⟨S_IFREG ||| 0o755, 3⟩ := by
  decide

/-- C20 (amended): `Unlink` never modifies the size cache; for every non-empty
name that passes `isLegalName` and has a size-cache entry `s`, `Unlink` returns
OK after its one `Delete` call, the entry is still `s`, and the adapter
`GetAttr` that follows returns OK with a regular file of size `s` without any
further call. -/
theorem C20_Unlink_keeps_size_cache (B : Backend σ) (b : bundleS3FS) (w : World σ)
    (name : String) (s : Nat) (hne : name ≠ "") (hleg : isLegalName name = true)
    (hs : b.fileSize.peek name = some s) :
    (b.Unlink B name w).ret = Status.OK
      ∧ (b.Unlink B name w).fs.fileSize = b.fileSize
      ∧ (b.Unlink B name w).world.trace = w.trace ++ [Call.delete name]
      ∧ ((b.Unlink B name w).fs.GetAttr B name (b.Unlink B name w).world).ret
          = (some ⟨S_IFREG ||| 0o755, s⟩, Status.OK)
      ∧ ((b.Unlink B name w).fs.GetAttr B name (b.Unlink B name w).world).world
          = (b.Unlink B name w).world := by
  have hu : b.Unlink B name w
      = ⟨Status.OK, { b with cacheTime := 0 }, (callDelete B name w).2⟩ := by
    simp [bundleS3FS.Unlink, hleg]
  have hs1 : ({ b with cacheTime := 0 } : bundleS3FS).fileSize.peek name = some s := hs
  have hg := (GetAttr_hit B { b with cacheTime := 0 } (callDelete B name w).2 name s hne hleg hs1)
  rw [hu]
  exact ⟨rfl, rfl, rfl, hg.1, hg.2⟩

/-- C20 (amended), at the name `a` on an adapter whose size cache holds 5
for `a`. -/
theorem C20_Unlink_keeps_size_cache_witness :
    "a" ≠ "" ∧ isLegalName "a" = true ∧ cachedFs.fileSize.peek "a" = some 5
      ∧ ((cachedFs.Unlink memBackend "a" ⟨sampleEnv, []⟩).fs.GetAttr memBackend "a"
            (cachedFs.Unlink memBackend "a" ⟨sampleEnv, []⟩).world).ret
          = (some ⟨S_IFREG ||| 0o755, 5⟩, Status.OK) :=
  ⟨by decide, by decide, by decide,
    (C20_Unlink_keeps_size_cache memBackend cachedFs ⟨sampleEnv, []⟩ "a" 5
      (by decide) (by decide) (by decide)).2.2.2.1⟩

/-- With the listing timestamp at 0 and the clock past 300 seconds,
`OpenDir("")` calls the store's `List` once and returns the names it yields,
or the previous list when the call fails. -/
theorem OpenDir_expired (B : Backend σ) (b : bundleS3FS) (w : World σ)
    (h0 : b.cacheTime = 0) (hnow : 300 < B.now w.env) :
    (b.OpenDir B "" w).world.trace = w.trace ++ [Call.list ""]
      ∧ (b.OpenDir B "" w).ret
          = (some ((((B.list "" w.env).1).getD b.l).map (fun n => (⟨n, S_IFREG⟩ : DirEntry))),
              Status.OK) := by
  have hs : B.now w.env - b.cacheTime > 300 := by rw [h0]; omega
  unfold bundleS3FS.OpenDir updateList callList
  simp only [if_true, hs]
  cases (B.list "" w.env).1 <;> exact ⟨rfl, rfl⟩

/-- A successful `Create` resets the listing timestamp. -/
theorem Create_ok_cacheTime (B : Backend σ) (b : bundleS3FS) (w : World σ) (name : String)
    (h : (b.Create B name w).ret.2 = Status.OK) : (b.Create B name w).fs.cacheTime = 0 := by
  unfold bundleS3FS.Create callNewObject callUpload at h ⊢
  cases hl : isLegalName name with
  | false => simp [hl] at h
  | true =>
    simp only [hl, if_false, Bool.not_true, Bool.false_eq_true] at h ⊢
    cases hn : (B.newObjectFromContent [] name w.env).1 with
    | none => simp [hn] at h
    | some o =>
      simp only [hn] at h ⊢
      cases hu : (B.upload o (B.newObjectFromContent [] name w.env).2).1 with
      | true => simp [hu] at h
      | false => simp [hu]

/-- A `save` that returns no error has reset the listing timestamp and
recorded the length of the buffer. -/
theorem save_ok (B : Backend σ) (f : bs3File) (b : bundleS3FS) (w : World σ)
    (h : (f.save B b w).ret = false) :
    (f.save B b w).fs = { b with fileSize := b.fileSize.Set f.name f.data.len, cacheTime := 0 }
      ∧ (B.writeFile f.o.path f.data.vis w.env).1 = false
      ∧ (B.upload f.o (B.writeFile f.o.path f.data.vis w.env).2).1 = false
      ∧ (f.save B b w).world.env = (B.upload f.o (B.writeFile f.o.path f.data.vis w.env).2).2 := by
  unfold bs3File.save callWriteFile callUpload at h ⊢
  cases hw : (B.writeFile f.o.path f.data.vis w.env).1 with
  | true => simp [hw] at h
  | false =>
    simp only [hw] at h ⊢
    simpa using h

/-- C11 (counterexample): `Create("b")` succeeds one second before, resets
the listing timestamp, and the store then holds `b` and `a`; yet the next
`OpenDir("")` calls `List`, the call fails, and only `a` is returned. -/
theorem C11_next_listing_misses_created_name :
    afterCreate.ret.2 = Status.OK ∧ afterCreate.fs.cacheTime = 0
      ∧ storedNames offlineListing.world.env = ["b", "a"]
      ∧ offlineListing.world.trace.getLast? = some (Call.list "")
      ∧ offlineListing.ret = (some [⟨"a", S_IFREG⟩], Status.OK) := by
  decide

/-- C11 (amended): after a successful `Create`, an `Unlink` of a legal name
(one without separator; names of 48 bytes or more are left aside), or a `save`
that returns no error, the listing timestamp is 0; the next `OpenDir("")`, in
any state of the store and however recently the list was refreshed (the clock
being past 300 seconds, as Unix time is), calls the store's `List` and returns
the names that call yields, or the previous list when the call fails. -/
theorem C11_expiry_forces_refetch (B : Backend σ) (b b1 : bundleS3FS) (w w1 : World σ)
    (name : String) (f : bs3File)
    (hop : ((b.Create B name w).ret.2 = Status.OK ∧ b1 = (b.Create B name w).fs)
      ∨ ((47 : UInt8) ∉ nameBytes name ∧ (nameBytes name).length < 48
          ∧ b1 = (b.Unlink B name w).fs)
      ∨ ((f.save B b w).ret = false ∧ b1 = (f.save B b w).fs))
    (hnow : 300 < B.now w1.env) :
    b1.cacheTime = 0
      ∧ (b1.OpenDir B "" w1).world.trace = w1.trace ++ [Call.list ""]
      ∧ (b1.OpenDir B "" w1).ret
          = (some ((((B.list "" w1.env).1).getD b1.l).map
              (fun n => (⟨n, S_IFREG⟩ : DirEntry))), Status.OK) := by
  have h0 : b1.cacheTime = 0 := by
    rcases hop with ⟨h, rfl⟩ | ⟨_, hlen, rfl⟩ | ⟨h, rfl⟩
    · exact Create_ok_cacheTime B b w name h
    · have hl : isLegalName name = true := by
        cases hl : isLegalName name with
        | true => rfl
        | false =>
          have := (isLegalName_eq_false_iff name).1 hl
          omega
      simp [bundleS3FS.Unlink, hl]
    · rw [(save_ok B f b w h).1]
  exact ⟨h0, OpenDir_expired B b1 w1 h0 hnow⟩

/-- C11 (amended), at `Create("b")` right after a listing at time 1000: the
next `OpenDir("")`, one second later, lists `b` and `a`. -/
theorem C11_expiry_forces_refetch_witness :
    afterCreate.ret.2 = Status.OK
      ∧ (300 : Int) < memBackend.now { afterCreate.world.env with clock := 1001 }
      ∧ afterCreate.fs.cacheTime = 0
      ∧ (afterCreate.fs.OpenDir memBackend ""
            ⟨{ afterCreate.world.env with clock := 1001 }, []⟩).ret
          = (some [⟨"b", S_IFREG⟩, ⟨"a", S_IFREG⟩], Status.OK) :=
  ⟨by decide, by decide,
    (C11_expiry_forces_refetch memBackend firstListing.fs afterCreate.fs firstListing.world
      ⟨{ afterCreate.world.env with clock := 1001 }, []⟩ "b" sampleFile
      (Or.inl ⟨by decide, rfl⟩) (by decide)).1,
    (C11_expiry_forces_refetch memBackend firstListing.fs afterCreate.fs firstListing.world
      ⟨{ afterCreate.world.env with clock := 1001 }, []⟩ "b" sampleFile
      (Or.inl ⟨by decide, rfl⟩) (by decide)).2.2⟩

/-- C13 (counterexample): a `Flush` and an `Fsync` whose upload fails return
`ENOENT`, the status `Open` returns for an absent file, and not `EIO`. -/
theorem C13_failed_flush_is_ENOENT :
    (sampleFile.save memBackend newbundleS3FS ⟨{ sampleEnv with offline := true }, []⟩).ret = true
      ∧ (sampleFile.Flush memBackend newbundleS3FS
            ⟨{ sampleEnv with offline := true }, []⟩).ret = Status.ENOENT
      ∧ (sampleFile.Fsync memBackend newbundleS3FS
            ⟨{ sampleEnv with offline := true }, []⟩).ret = Status.ENOENT
      ∧ (newbundleS3FS.Open memBackend "absent" ⟨sampleEnv, []⟩).ret = (none, Status.ENOENT)
      ∧ Status.ENOENT ≠ Status.EIO := by
  decide

/-- C13 (amended): `Flush` and `Fsync` each return OK exactly when `save`
returns no error and otherwise return `ENOENT`, the status the adapter also
uses for absent files; they have the effects of `save` and no other, and
assign no field of the handle, so its buffer is unchanged in both outcomes. -/
theorem C13_Flush_Fsync_follow_save (B : Backend σ) (f : bs3File) (b : bundleS3FS)
    (w : World σ) :
    ((f.Flush B b w).ret = Status.OK ↔ (f.save B b w).ret = false)
      ∧ ((f.Flush B b w).ret = Status.ENOENT ↔ (f.save B b w).ret = true)
      ∧ (f.Flush B b w).fs = (f.save B b w).fs
      ∧ (f.Flush B b w).world = (f.save B b w).world
      ∧ ((f.Fsync B b w).ret = Status.OK ↔ (f.save B b w).ret = false)
      ∧ ((f.Fsync B b w).ret = Status.ENOENT ↔ (f.save B b w).ret = true)
      ∧ (f.Fsync B b w).fs = (f.save B b w).fs
      ∧ (f.Fsync B b w).world = (f.save B b w).world := by
  unfold bs3File.Flush bs3File.Fsync
  rcases bs3File.save B f b w with ⟨r, b1, w1⟩
  cases r <;> simp

/-! ## The round trip -/

/-- The handle of a successful `Create`: an empty buffer under the given name,
which passes `isLegalName`. -/
theorem Create_ok_handle (B : Backend σ) (b b1 : bundleS3FS) (w w1 : World σ) (name : String)
    (f : bs3File) (h : b.Create B name w = ⟨(some f, Status.OK), b1, w1⟩) :
    isLegalName name = true ∧ f.data = ⟨[], []⟩ ∧ f.name = name := by
  unfold bundleS3FS.Create callNewObject callUpload at h
  cases hl : isLegalName name with
  | false => simp [hl] at h
  | true =>
    simp only [hl, if_false, Bool.not_true, Bool.false_eq_true] at h
    cases hn : (B.newObjectFromContent [] name w.env).1 with
    | none => simp [hn] at h
    | some o =>
      simp only [hn] at h
      cases hu : (B.upload o (B.newObjectFromContent [] name w.env).2).1 with
      | true => simp [hu] at h
      | false =>
        simp only [hu] at h
        have hf : newbs3File ⟨[], []⟩ name o = f := by
          have := congrArg (fun r => r.ret.1) h
          simpa using this
        subst hf
        exact ⟨rfl, rfl, rfl⟩

/-- `Flush` in terms of `save`. -/
theorem Flush_eq (B : Backend σ) (f : bs3File) (b : bundleS3FS) (w : World σ) :
    f.Flush B b w
      = ⟨if (f.save B b w).ret then Status.ENOENT else Status.OK,
          (f.save B b w).fs, (f.save B b w).world⟩ := by
  unfold bs3File.Flush
  rcases bs3File.save B f b w with ⟨r, b1, w1⟩
  cases r <;> rfl

/-- Association-list lookup after an update of the same key. -/
theorem look_put (m : List (String × List UInt8)) (k : String) (v : List UInt8) :
    look (put m k v) k = some v := by
  simp [look, put]

/-- The reference store keeps what is uploaded. -/
theorem memBackend_keeps_uploads (a : String) :
    storeKeepsUploads memBackend a ⟨a, scratchPath a⟩ := by
  intro e d _ hu
  cases ho : e.offline with
  | true => simp [memBackend, ho] at hu
  | false =>
    refine ⟨⟨a, scratchPath a⟩, ⟨d, []⟩, ?_, ?_, rfl⟩
    · simp [memBackend, ho, look_put]
    · simp [memBackend, ho, look_put]

/-- C18: over a store that keeps what is uploaded through the handle's object
under the name `a`, if `Create(a)` succeeds with the handle `f` and the `Flush`
of the handle after `Write(X, 0)` returns OK, then `Write(X, 0)` succeeds and
leaves the buffer `X`, and the `Open(a)` that follows returns OK with a new
handle for `a` whose buffer equals `X`. -/
theorem C18_create_write_flush_open (B : Backend σ) (a : String) (X : List UInt8)
    (b b1 b2 : bundleS3FS) (w w1 w2 : World σ) (f : bs3File)
    (hstore : storeKeepsUploads B a f.o)
    (hc : b.Create B a w = ⟨(some f, Status.OK), b1, w1⟩)
    (hf : bs3File.Flush B { f with data := ⟨X, []⟩ } b1 w1 = ⟨Status.OK, b2, w2⟩) :
    f.Write X 0 = some ({ f with data := ⟨X, []⟩ }, X.length % 2 ^ 32, Status.OK)
      ∧ ∃ g w3, b2.Open B a w2 = ⟨(some g, Status.OK), b2, w3⟩
          ∧ g.data.vis = X ∧ g.name = a := by
  obtain ⟨hleg, hdata, _⟩ := Create_ok_handle B b b1 w w1 a f hc
  constructor
  · have h := Write_inside f X 0 (Nat.zero_le _)
    simp only [hdata, Slice.len, List.take_nil, List.length_nil, List.nil_append, Nat.zero_add,
      Nat.zero_sub, List.replicate_zero, List.append_nil, Nat.zero_max] at h
    simpa [hdata] using h
  · rw [Flush_eq] at hf
    have hret : (bs3File.save B { f with data := ⟨X, []⟩ } b1 w1).ret = false := by
      have h1 := congrArg (fun r => r.ret) hf
      simp only at h1
      cases hr : (bs3File.save B { f with data := ⟨X, []⟩ } b1 w1).ret with
      | false => rfl
      | true => simp [hr] at h1
    have hw2 : (bs3File.save B { f with data := ⟨X, []⟩ } b1 w1).world = w2 := by
      have h1 := congrArg (fun r => r.world) hf
      simpa using h1
    obtain ⟨_, hwf, hup, henv⟩ := save_ok B { f with data := ⟨X, []⟩ } b1 w1 hret
    obtain ⟨o1, c, hget, hread, hvis⟩ := hstore w1.env X hwf hup
    rw [hw2] at henv
    rw [← henv] at hget hread
    refine ⟨newbs3File c a o1, (callReadFile B o1.path (callGet B a w2).2).2, ?_, hvis, rfl⟩
    unfold bundleS3FS.Open
    simp only [hleg, if_false, Bool.not_true, Bool.false_eq_true]
    have hg : callGet B a w2 = (some o1, (callGet B a w2).2) := by
      unfold callGet
      rw [hget]
    rw [hg]
    dsimp only
    have hr : callReadFile B o1.path (callGet B a w2).2
        = (some c, (callReadFile B o1.path (callGet B a w2).2).2) := by
      unfold callReadFile callGet
      dsimp only
      rw [hread]
    rw [hr]

/-- C18, at the name `a` and the content `[1, 2, 3]`, from a fresh adapter
over the empty reference store. -/
theorem C18_create_write_flush_open_witness :
    (newbundleS3FS.Create memBackend "a" ⟨emptyEnv 1000, []⟩).ret
        = (some createdFile, Status.OK)
      ∧ (bs3File.Flush memBackend { createdFile with data := ⟨[1, 2, 3], []⟩ }
          (newbundleS3FS.Create memBackend "a" ⟨emptyEnv 1000, []⟩).fs
          (newbundleS3FS.Create memBackend "a" ⟨emptyEnv 1000, []⟩).world).ret = Status.OK
      ∧ ∃ g w3,
      (bs3File.Flush memBackend { createdFile with data := ⟨[1, 2, 3], []⟩ }
          (newbundleS3FS.Create memBackend "a" ⟨emptyEnv 1000, []⟩).fs
          (newbundleS3FS.Create memBackend "a" ⟨emptyEnv 1000, []⟩).world).fs.Open memBackend "a"
        (bs3File.Flush memBackend { createdFile with data := ⟨[1, 2, 3], []⟩ }
          (newbundleS3FS.Create memBackend "a" ⟨emptyEnv 1000, []⟩).fs
          (newbundleS3FS.Create memBackend "a" ⟨emptyEnv 1000, []⟩).world).world
        = ⟨(some g, Status.OK),
            (bs3File.Flush memBackend { createdFile with data := ⟨[1, 2, 3], []⟩ }
              (newbundleS3FS.Create memBackend "a" ⟨emptyEnv 1000, []⟩).fs
              (newbundleS3FS.Create memBackend "a" ⟨emptyEnv 1000, []⟩).world).fs, w3⟩
        ∧ g.data.vis = [1, 2, 3] ∧ g.name = "a" :=
  ⟨by decide, by decide,
    (C18_create_write_flush_open memBackend "a" [1, 2, 3] newbundleS3FS _ _
      ⟨emptyEnv 1000, []⟩ _ _ createdFile (memBackend_keeps_uploads "a") rfl rfl).2⟩

end BundleS3FS
